import Mathlib

/-!
CRC3 of the TLE9180 SPI transmit frame.

A shallow embedding of `crc3.c`: the frame packer `pack_tx24_wo_crc`, the
bit-serial checksum `tle9180_crc3_tx24`, the table `IfxTLE9180_startupConfig`
and the checking loop of `main`.

Machine integers are natural numbers.  `uint8_t` conversions are written
`% 256`; `unsigned` is taken 32 bits wide, so the counter of `main` wraps at
`2 ^ 32`.  A `uint32_t` frame is a natural number below `2 ^ 32`.
-/

set_option maxRecDepth 100000

namespace Crc3

/-! ## Data model -/

/-- The bit-field view `IfxTLE9180_SpiTx_bits` of a transmit word: `CRC` is
bits 0..2, `DATA` bits 8..15, `ADDRESS` bits 16..22 and `C` bit 23.  The two
unnamed fields (bits 3..7 and 24..31) carry no name and are not read. -/
structure IfxTLE9180_SpiTx_bits where
  CRC : Nat
  DATA : Nat
  ADDRESS : Nat
  C : Nat
deriving DecidableEq, Repr

/-! ## The checksum -/

/-- One pass through the body of the `for` loop of `tle9180_crc3_tx24`, at
bit index `i` with register `lfsr`; the value is the register after the
assignment that closes the body. -/
def crc3_body (frame_wo_crc : Nat) (i : Nat) (lfsr : Nat) : Nat :=
  let inb := ((frame_wo_crc >>> i) &&& 1) % 256
  let fb := (inb ^^^ ((lfsr >>> 2) &&& 1)) % 256
  let b2 := ((lfsr >>> 1) &&& 1) % 256
  let b1 := (((lfsr >>> 0) &&& 1) ^^^ fb) % 256
  let b0 := fb
  ((b2 <<< 2) ||| (b1 <<< 1) ||| b0) % 256

/-- The `for (int i = 23; i >= 3; --i)` loop, by recursion on the number `k`
of iterations still to run: with `k + 1` iterations left the index is
`i = k + 3`, and the loop is left when `i` reaches `2`. -/
def crc3_loop (frame_wo_crc : Nat) : Nat → Nat → Nat
  | 0, lfsr => lfsr
  | k + 1, lfsr => crc3_loop frame_wo_crc k (crc3_body frame_wo_crc (k + 3) lfsr)

/-- The function `tle9180_crc3_tx24`: start value `0b100`, the 21 iterations
for `i = 23, 22, ..., 3`, and the final mask. -/
def tle9180_crc3_tx24 (frame_wo_crc : Nat) : Nat :=
  let lfsr := 0b100
  let lfsr := crc3_loop frame_wo_crc 21 lfsr
  (lfsr &&& 0x7) % 256

/-! ## The frame packer -/

/-- The function `pack_tx24_wo_crc`.  Its parameters are `uint8_t`, so a call
passes values below 256 (a wider argument is converted modulo 256 at the
call, as `main` does with its casts); the word `w` is a `uint32_t`, and every
value or-ed into it is below `2 ^ 24`, so nothing wraps. -/
def pack_tx24_wo_crc (addr data c : Nat) : Nat :=
  let w := 0
  let w := w ||| ((if c ≠ 0 then 1 else 0) <<< 23)
  let w := w ||| ((addr &&& 0x7F) <<< 16)
  let w := w ||| ((data &&& 0xFF) <<< 8)
  w

/-! ## The table and the checking loop -/

/-- The table `IfxTLE9180_startupConfig`, entry by entry. -/
def IfxTLE9180_startupConfig : List IfxTLE9180_SpiTx_bits :=
  [ { C := 1, ADDRESS := 0x01, DATA := 0x81, CRC := 4 },
    { C := 1, ADDRESS := 0x02, DATA := 0x0F, CRC := 0 },
    { C := 1, ADDRESS := 0x06, DATA := 0x70, CRC := 6 },
    { C := 1, ADDRESS := 0x07, DATA := 0x9A, CRC := 6 },
    { C := 1, ADDRESS := 0x08, DATA := 0x32, CRC := 1 },
    { C := 1, ADDRESS := 0x0A, DATA := 0x2A, CRC := 3 },
    { C := 1, ADDRESS := 0x0B, DATA := 0x4A, CRC := 3 },
    { C := 1, ADDRESS := 0x13, DATA := 0x2A, CRC := 5 },
    { C := 1, ADDRESS := 0x00, DATA := 0xAC, CRC := 2 },
    { C := 1, ADDRESS := 0x20, DATA := 0x44, CRC := 3 },
    { C := 1, ADDRESS := 0x21, DATA := 0x44, CRC := 7 },
    { C := 1, ADDRESS := 0x22, DATA := 0x44, CRC := 0 },
    { C := 1, ADDRESS := 0x23, DATA := 0x9F, CRC := 0 } ]

/-- The value of `ok` computed in the body of the loop of `main` for the
entry `e`: the packed frame, its checksum, and the comparison with the
entry's `CRC` masked to three bits. -/
def entry_ok (e : IfxTLE9180_SpiTx_bits) : Bool :=
  let w_no_crc := pack_tx24_wo_crc (e.ADDRESS % 256) (e.DATA % 256) (e.C % 256)
  let crc := tle9180_crc3_tx24 w_no_crc
  crc == (e.CRC &&& 0x7)

/-- The loop of `main` over the entries still to visit, with the running
value of the `unsigned` counter `fails`; `++fails` wraps at `2 ^ 32`. -/
def main_loop : List IfxTLE9180_SpiTx_bits → Nat → Nat
  | [], fails => fails
  | e :: rest, fails =>
    let ok := entry_ok e
    main_loop rest (if !ok then (fails + 1) % 2 ^ 32 else fails)

/-- What a run of `main` over a table leaves behind: the counter `fails`,
the entry count `n` (both printed in the summary line) and the returned
status. -/
structure MainResult where
  fails : Nat
  n : Nat
  status : Nat
deriving DecidableEq, Repr

/-- The body of `main` for a given table (the printed lines left out). -/
def main_on (table : List IfxTLE9180_SpiTx_bits) : MainResult :=
  let n := table.length
  let fails := main_loop table 0
  { fails := fails, n := n, status := if fails = 0 then 0 else 1 }

/-- The program `main`: the checking loop over `IfxTLE9180_startupConfig`. -/
def main : MainResult :=
  main_on IfxTLE9180_startupConfig

/-! ## The checksum as the specification words it -/

/-- One step of the shift-and-XOR form of the CRC of polynomial `x^3 + x + 1`,
following the specification's words: `fb` is the input bit XOR bit 2 of the
register, and the register becomes `((register << 1) AND 7) XOR 0b011` when
`fb = 1`, `(register << 1) AND 7` otherwise. -/
def crc3_shift_xor_step (register inbit : Nat) : Nat :=
  let fb := inbit ^^^ ((register >>> 2) &&& 1)
  ((register <<< 1) &&& 7) ^^^ (if fb = 1 then 0b011 else 0)

/-- The shift-and-XOR CRC following the specification's words: start register
`0b100`, the bits 23 down to 3 of the frame fed most-significant first, no
final XOR. -/
def crc3_shift_xor (frame : Nat) : Nat :=
  [23, 22, 21, 20, 19, 18, 17, 16, 15, 14, 13, 12, 11, 10, 9, 8, 7, 6, 5, 4, 3].foldl
    (fun register i => crc3_shift_xor_step register ((frame >>> i) &&& 1)) 0b100

/-- A test vector whose given checksum 0 is not the computed one, 4. -/
def mismatching_vector : IfxTLE9180_SpiTx_bits :=
  { C := 1, ADDRESS := 0x01, DATA := 0x81, CRC := 0 }

/-- A two-entry table: the first reference vector and a mismatching one. -/
def sample_table : List IfxTLE9180_SpiTx_bits :=
  [{ C := 1, ADDRESS := 0x01, DATA := 0x81, CRC := 4 }, mismatching_vector]

/-- The register `lfsr` of `tle9180_crc3_tx24` after the first `j` passes of
its loop: the start value `0b100` for `j = 0`, and pass `j + 1` runs the body
at index `i = 23 - j` (so the passes are at 23, 22, ..., and pass 21 at 3). -/
def crc3_register_after (frame_wo_crc : Nat) : Nat → Nat
  | 0 => 0b100
  | j + 1 => crc3_body frame_wo_crc (23 - j) (crc3_register_after frame_wo_crc j)

/-! ## Bit-level lemmas -/

/-- The input bit read by the loop body is the bit `i` of the frame. -/
theorem shiftRight_and_one (f i : Nat) : (f >>> i) &&& 1 = (f.testBit i).toNat := by
  rw [Nat.and_one_is_mod, Nat.shiftRight_eq_div_pow, Nat.toNat_testBit]

/-- The loop body reads the frame only through its bit `i`. -/
theorem crc3_body_testBit (f i l : Nat) :
    crc3_body f i l = crc3_body (f.testBit i).toNat 0 l := by
  have h0 : ((f.testBit i).toNat >>> 0) &&& 1 = (f.testBit i).toNat := by
    cases f.testBit i <;> rfl
  simp only [crc3_body, shiftRight_and_one f i, h0]

/-- Frames that agree on bit `i` give the same register after the body. -/
theorem crc3_body_congr {f g i : Nat} (h : f.testBit i = g.testBit i) (l : Nat) :
    crc3_body f i l = crc3_body g i l := by
  rw [crc3_body_testBit f, crc3_body_testBit g, h]

/-- The register left by the loop body is a three-bit value. -/
theorem crc3_body_lt (f i l : Nat) : crc3_body f i l < 8 := by
  rw [crc3_body_testBit]
  have key : ∀ (b : Bool) (l : Nat), crc3_body b.toNat 0 l < 8 := by
    intro b l
    have h1 : (l >>> 1) &&& 1 < 2 := by
      rw [Nat.and_one_is_mod]; exact Nat.mod_lt _ (by decide)
    have h2 : (l >>> 2) &&& 1 < 2 := by
      rw [Nat.and_one_is_mod]; exact Nat.mod_lt _ (by decide)
    have h0 : (l >>> 0) &&& 1 < 2 := by
      rw [Nat.and_one_is_mod]; exact Nat.mod_lt _ (by decide)
    simp only [crc3_body]
    generalize (l >>> 1) &&& 1 = x1 at h1
    generalize (l >>> 2) &&& 1 = x2 at h2
    generalize (l >>> 0) &&& 1 = x0 at h0
    cases b <;> interval_cases x1 <;> interval_cases x2 <;> interval_cases x0 <;> decide
  exact key _ _

/-- The register stays a three-bit value through the loop. -/
theorem crc3_loop_lt (f : Nat) : ∀ (k l : Nat), l < 8 → crc3_loop f k l < 8
  | 0, _, hl => hl
  | k + 1, l, _ => crc3_loop_lt f k _ (crc3_body_lt f (k + 3) l)

/-- The loop over `k` iterations reads bits `3 .. k + 2` of the frame only. -/
theorem crc3_loop_congr {f g : Nat} :
    ∀ (k : Nat), (∀ i, 3 ≤ i → i < k + 3 → f.testBit i = g.testBit i) →
      ∀ l, crc3_loop f k l = crc3_loop g k l
  | 0, _, _ => rfl
  | k + 1, h, l => by
    simp only [crc3_loop]
    rw [crc3_body_congr (h (k + 3) (by omega) (by omega)) l]
    exact crc3_loop_congr k (fun i h3 hk => h i h3 (by omega)) _

/-- The checksum reads bits `3 .. 23` of the frame only. -/
theorem crc3_congr {f g : Nat}
    (h : ∀ i, 3 ≤ i → i ≤ 23 → f.testBit i = g.testBit i) :
    tle9180_crc3_tx24 f = tle9180_crc3_tx24 g := by
  simp only [tle9180_crc3_tx24]
  rw [crc3_loop_congr 21 (fun i h3 hk => h i h3 (by omega)) 4]

/-- The final mask and conversion leave the register as it is. -/
theorem crc3_eq_loop (f : Nat) : tle9180_crc3_tx24 f = crc3_loop f 21 4 := by
  have h := crc3_loop_lt f 21 4 (by decide)
  simp only [tle9180_crc3_tx24]
  have e : (7 : Nat) = 2 ^ 3 - 1 := by decide
  rw [e, Nat.and_pow_two_sub_one_eq_mod]
  omega

/-- The loop body is linear over exclusive or. -/
theorem crc3_body_xor (a b i : Nat) {l1 l2 : Nat} (h1 : l1 < 8) (h2 : l2 < 8) :
    crc3_body (a ^^^ b) i (l1 ^^^ l2) = crc3_body a i l1 ^^^ crc3_body b i l2 := by
  rw [crc3_body_testBit (a ^^^ b), crc3_body_testBit a, crc3_body_testBit b,
    Nat.testBit_xor]
  have key : ∀ (x y : Bool), ∀ l1 < 8, ∀ l2 < 8,
      crc3_body (x ^^ y).toNat 0 (l1 ^^^ l2)
        = crc3_body x.toNat 0 l1 ^^^ crc3_body y.toNat 0 l2 := by decide
  exact key _ _ l1 h1 l2 h2

/-- The loop is linear over exclusive or. -/
theorem crc3_loop_xor (a b : Nat) :
    ∀ (k l1 l2 : Nat), l1 < 8 → l2 < 8 →
      crc3_loop (a ^^^ b) k (l1 ^^^ l2) = crc3_loop a k l1 ^^^ crc3_loop b k l2
  | 0, _, _, _, _ => rfl
  | k + 1, l1, l2, h1, h2 => by
    simp only [crc3_loop]
    rw [crc3_body_xor a b (k + 3) h1 h2]
    exact crc3_loop_xor a b k _ _ (crc3_body_lt _ _ _) (crc3_body_lt _ _ _)

/-- Toggling the bits of `d` in a frame moves the checksum by the response of
the loop to `d` from the zero register. -/
theorem crc3_xor (f d : Nat) :
    tle9180_crc3_tx24 (f ^^^ d) = tle9180_crc3_tx24 f ^^^ crc3_loop d 21 0 := by
  rw [crc3_eq_loop, crc3_eq_loop]
  exact crc3_loop_xor f d 21 4 0 (by decide) (by decide)

/-- Toggling the bits of `d` leaves the checksum alone exactly when the loop
answers `d` with the zero register. -/
theorem crc3_xor_eq_iff (f d : Nat) :
    tle9180_crc3_tx24 (f ^^^ d) = tle9180_crc3_tx24 f ↔ crc3_loop d 21 0 = 0 := by
  rw [crc3_xor]
  constructor
  · intro h
    have h2 := congrArg (fun t => tle9180_crc3_tx24 f ^^^ t) h
    simpa [Nat.xor_cancel_left] using h2
  · intro h
    rw [h, Nat.xor_zero]

/-- Bits 3 to 23 of the mask `0x00FFFFF8` are set. -/
theorem testBit_mask_window (i : Nat) (h3 : 3 ≤ i) (h23 : i ≤ 23) :
    Nat.testBit 0x00FFFFF8 i = true := by
  interval_cases i <;> decide

/-- Bits 0 to 23 of the mask `0x00FFFFFF` are set. -/
theorem testBit_mask_low24 (i : Nat) (h23 : i ≤ 23) :
    Nat.testBit 0x00FFFFFF i = true := by
  interval_cases i <;> decide

/-- A three-bit value has no bit at index 3 or above. -/
theorem testBit_of_lt_eight {c i : Nat} (hc : c < 8) (h3 : 3 ≤ i) :
    c.testBit i = false := by
  apply Nat.testBit_lt_two_pow
  calc c < 2 ^ 3 := hc
    _ ≤ 2 ^ i := Nat.pow_le_pow_right (by decide) h3

/-- The packed word as a sum: the three fields occupy disjoint bit ranges. -/
theorem pack_tx24_wo_crc_eq (addr data c : Nat) :
    pack_tx24_wo_crc addr data c
      = (if c ≠ 0 then 1 else 0) * 2 ^ 23 + (addr % 128) * 2 ^ 16 + (data % 256) * 2 ^ 8 := by
  have ea : addr &&& 0x7F = addr % 128 := Nat.and_pow_two_sub_one_eq_mod addr 7
  have ed : data &&& 0xFF = data % 256 := Nat.and_pow_two_sub_one_eq_mod data 8
  have ha : addr % 128 < 128 := Nat.mod_lt _ (by decide)
  have hd : data % 256 < 256 := Nat.mod_lt _ (by decide)
  simp only [pack_tx24_wo_crc, Nat.zero_or, ea, ed, Nat.shiftLeft_eq]
  generalize addr % 128 = a at ha
  generalize data % 256 = d at hd
  generalize (if c ≠ 0 then 1 else 0 : Nat) = b
  have s1 : b * 2 ^ 23 ||| a * 2 ^ 16 = b * 2 ^ 23 + a * 2 ^ 16 := by
    have h := Nat.mul_add_lt_is_or (i := 23) (b := a * 2 ^ 16) (by omega) b
    rw [Nat.mul_comm (2 ^ 23) b] at h
    exact h.symm
  have s2 : (b * 2 ^ 23 + a * 2 ^ 16) ||| d * 2 ^ 8
      = b * 2 ^ 23 + a * 2 ^ 16 + d * 2 ^ 8 := by
    have h := Nat.mul_add_lt_is_or (i := 16) (b := d * 2 ^ 8) (by omega) (b * 2 ^ 7 + a)
    have e : 2 ^ 16 * (b * 2 ^ 7 + a) = b * 2 ^ 23 + a * 2 ^ 16 := by ring
    rw [e] at h
    exact h.symm
  rw [s1, s2]

/-- Masking with `0xFF` is the remainder modulo 256. -/
theorem and_0xFF (x : Nat) : x &&& 0xFF = x % 256 := Nat.and_pow_two_sub_one_eq_mod x 8

/-- Masking with `0x7F` is the remainder modulo 128. -/
theorem and_0x7F (x : Nat) : x &&& 0x7F = x % 128 := Nat.and_pow_two_sub_one_eq_mod x 7

/-- Masking with `0x1F` is the remainder modulo 32. -/
theorem and_0x1F (x : Nat) : x &&& 0x1F = x % 32 := Nat.and_pow_two_sub_one_eq_mod x 5

/-- Masking with `0x7` is the remainder modulo 8. -/
theorem and_0x7 (x : Nat) : x &&& 0x7 = x % 8 := Nat.and_pow_two_sub_one_eq_mod x 3

/-- The negated `ok` of the loop of `main` is the mismatch test. -/
theorem not_entry_ok_eq (e : IfxTLE9180_SpiTx_bits) :
    (!entry_ok e) = decide (tle9180_crc3_tx24
      (pack_tx24_wo_crc (e.ADDRESS % 256) (e.DATA % 256) (e.C % 256)) ≠ e.CRC &&& 0x7) := by
  simp only [entry_ok]
  generalize tle9180_crc3_tx24 _ = x
  generalize e.CRC &&& 0x7 = y
  by_cases h : x = y <;> simp [h]

/-- The counter after the loop of `main`: the start value plus the number of
mismatching entries, reduced modulo `2 ^ 32`. -/
theorem main_loop_eq :
    ∀ (table : List IfxTLE9180_SpiTx_bits) (fails : Nat), fails < 2 ^ 32 →
      main_loop table fails
        = (fails + table.countP (fun e => !entry_ok e)) % 2 ^ 32
  | [], fails, h => by
    simp only [main_loop, List.countP_nil, Nat.add_zero]
    exact (Nat.mod_eq_of_lt h).symm
  | e :: rest, fails, h => by
    simp only [main_loop, List.countP_cons]
    cases hok : entry_ok e
    · have hlt : (fails + 1) % 2 ^ 32 < 2 ^ 32 := Nat.mod_lt _ (by decide)
      simp only [Bool.not_false, if_true]
      rw [main_loop_eq rest _ hlt]
      omega
    · simp only [Bool.not_true, Bool.false_eq_true, if_false, Nat.add_zero]
      exact main_loop_eq rest fails h

/-- The counter reported by `main_on` is the one the loop leaves. -/
theorem main_on_fails (table : List IfxTLE9180_SpiTx_bits) :
    (main_on table).fails = main_loop table 0 := rfl

/-- The status returned by `main_on` is 0 for a zero counter, 1 otherwise. -/
theorem main_on_status (table : List IfxTLE9180_SpiTx_bits) :
    (main_on table).status = if main_loop table 0 = 0 then 0 else 1 := rfl

/-- On a three-bit register the loop body is the shift-and-XOR step. -/
theorem crc3_body_eq_shift_xor_step (f i : Nat) {l : Nat} (hl : l < 8) :
    crc3_body f i l = crc3_shift_xor_step l ((f >>> i) &&& 1) := by
  rw [crc3_body_testBit, shiftRight_and_one]
  have key : ∀ (b : Bool), ∀ l < 8,
      crc3_body b.toNat 0 l = crc3_shift_xor_step l b.toNat := by decide
  exact key _ l hl

/-- The loop over `k` iterations is the left fold of the shift-and-XOR step
over the indices `k + 2, ..., 3`. -/
theorem crc3_loop_eq_foldl (f : Nat) :
    ∀ (k l : Nat), l < 8 →
      crc3_loop f k l = (List.range' 3 k).reverse.foldl
        (fun register i => crc3_shift_xor_step register ((f >>> i) &&& 1)) l
  | 0, _, _ => rfl
  | k + 1, l, hl => by
    rw [List.range'_concat, List.reverse_concat, List.foldl_cons, Nat.one_mul,
      Nat.add_comm 3 k, ← crc3_body_eq_shift_xor_step f (k + 3) hl]
    exact crc3_loop_eq_foldl f k _ (crc3_body_lt f (k + 3) l)

/-- From the register reached after `21 - k` passes, the remaining `k`
iterations of the loop end in the register reached after all 21 passes. -/
theorem crc3_loop_register_after (f : Nat) :
    ∀ k, k ≤ 21 →
      crc3_loop f k (crc3_register_after f (21 - k)) = crc3_register_after f 21
  | 0, _ => rfl
  | k + 1, h => by
    have ih := crc3_loop_register_after f k (by omega)
    have e : 21 - k = (21 - (k + 1)) + 1 := by omega
    have e2 : 23 - (21 - (k + 1)) = k + 3 := by omega
    rw [e] at ih
    simp only [crc3_register_after] at ih
    rw [e2] at ih
    simp only [crc3_loop]
    exact ih

/-- The register after any number of passes is a three-bit value. -/
theorem crc3_register_after_lt (f : Nat) : ∀ j, crc3_register_after f j < 8
  | 0 => by
    show (4 : Nat) < 8
    decide
  | j + 1 => crc3_body_lt f (23 - j) _

/-- The counter reported by `main_on`: the number of mismatching entries,
reduced modulo `2 ^ 32`. -/
theorem main_on_fails_eq (table : List IfxTLE9180_SpiTx_bits) :
    (main_on table).fails = table.countP (fun e => !entry_ok e) % 2 ^ 32 := by
  rw [main_on_fails, main_loop_eq table 0 (by decide), Nat.zero_add]

/-- Over `n` copies of the mismatching vector the counter is `n` reduced
modulo `2 ^ 32`. -/
theorem main_on_fails_replicate (n : Nat) :
    (main_on (List.replicate n mismatching_vector)).fails = n % 2 ^ 32 := by
  have hbad : (!entry_ok mismatching_vector) = true := by decide
  rw [main_on_fails_eq, List.countP_replicate, hbad, if_pos rfl]

/-! ## The reference table -/

/-- C1: every one of the 13 entries of `IfxTLE9180_startupConfig` has the
checksum that `tle9180_crc3_tx24` computes for its packed frame, so `main`
counts 0 mismatches out of 13 and returns 0; the four vectors quoted by the
specification give 4, 0, 0 and 1. -/
theorem startupConfig_all_match :
    (∀ e ∈ IfxTLE9180_startupConfig,
        tle9180_crc3_tx24 (pack_tx24_wo_crc e.ADDRESS e.DATA e.C) = e.CRC) ∧
      IfxTLE9180_startupConfig.length = 13 ∧
      main.fails = 0 ∧ main.n = 13 ∧ main.status = 0 ∧
      tle9180_crc3_tx24 (pack_tx24_wo_crc 0x01 0x81 1) = 4 ∧
      tle9180_crc3_tx24 (pack_tx24_wo_crc 0x02 0x0F 1) = 0 ∧
      tle9180_crc3_tx24 (pack_tx24_wo_crc 0x23 0x9F 1) = 0 ∧
      tle9180_crc3_tx24 (pack_tx24_wo_crc 0x08 0x32 1) = 1 := by
  refine ⟨by decide, by decide, by decide, by decide, by decide, by decide, by decide,
    by decide, by decide⟩

/-! ## Which bits the checksum reads -/

/-- C2: for a 32-bit frame `f` and three-bit values `c1`, `c2`, the checksum of
`f` with bits 2..0 replaced by `c1` equals the checksum of `f` with bits 2..0
replaced by `c2`. -/
theorem crc3_checksum_field_independent (f c1 c2 : Nat)
    (_hf : f < 2 ^ 32) (h1 : c1 < 8) (h2 : c2 < 8) :
    tle9180_crc3_tx24 ((f &&& 0xFFFFFFF8) ||| c1)
      = tle9180_crc3_tx24 ((f &&& 0xFFFFFFF8) ||| c2) := by
  apply crc3_congr
  intro i h3 _
  rw [Nat.testBit_or, Nat.testBit_or, testBit_of_lt_eight h1 h3,
    testBit_of_lt_eight h2 h3]

/-- Witness of C2 at `f = 0xABCDEF`, `c1 = 5`, `c2 = 2`. -/
theorem crc3_checksum_field_independent_witness :
    (0xABCDEF : Nat) < 2 ^ 32 ∧ (5 : Nat) < 8 ∧ (2 : Nat) < 8 ∧
      tle9180_crc3_tx24 ((0xABCDEF &&& 0xFFFFFFF8) ||| 5)
        = tle9180_crc3_tx24 ((0xABCDEF &&& 0xFFFFFFF8) ||| 2) :=
  ⟨by decide, by decide, by decide,
    crc3_checksum_field_independent 0xABCDEF 5 2 (by decide) (by decide) (by decide)⟩

/-- C3: for a 32-bit frame `f` and an 8-bit value `h`, the checksum of `f`
equals the checksum of `f` with bits 31..24 replaced by `h`; and the checksum
of `f` is the checksum of `f AND 0x00FFFFF8`. -/
theorem crc3_high_bits_independent (f h : Nat) (_hf : f < 2 ^ 32) (_hh : h < 256) :
    tle9180_crc3_tx24 ((f &&& 0x00FFFFFF) ||| (h <<< 24)) = tle9180_crc3_tx24 f ∧
      tle9180_crc3_tx24 f = tle9180_crc3_tx24 (f &&& 0x00FFFFF8) := by
  constructor
  · apply crc3_congr
    intro i _ h23
    have hi : ¬ (24 ≤ i) := by omega
    simp [Nat.testBit_or, Nat.testBit_and, Nat.testBit_shiftLeft,
      testBit_mask_low24 i h23, hi]
  · apply crc3_congr
    intro i h3 h23
    rw [Nat.testBit_and, testBit_mask_window i h3 h23, Bool.and_true]

/-- Witness of C3 at `f = 0x12ABCDEF`, `h = 0xC3`. -/
theorem crc3_high_bits_independent_witness :
    (0x12ABCDEF : Nat) < 2 ^ 32 ∧ (0xC3 : Nat) < 256 ∧
      tle9180_crc3_tx24 ((0x12ABCDEF &&& 0x00FFFFFF) ||| (0xC3 <<< 24))
        = tle9180_crc3_tx24 0x12ABCDEF ∧
      tle9180_crc3_tx24 0x12ABCDEF = tle9180_crc3_tx24 (0x12ABCDEF &&& 0x00FFFFF8) :=
  ⟨by decide, by decide, crc3_high_bits_independent 0x12ABCDEF 0xC3 (by decide) (by decide)⟩

/-! ## The reserved bits -/

/-- C4: for a 32-bit frame `f`, toggling all of bits 7..3 changes the
checksum. -/
theorem crc3_reserved_toggle_changes (f : Nat) (_hf : f < 2 ^ 32) :
    tle9180_crc3_tx24 (f ^^^ 0xF8) ≠ tle9180_crc3_tx24 f := by
  rw [Ne, crc3_xor_eq_iff]
  decide

/-- Witness of C4 at `f = 0xABCDEF`. -/
theorem crc3_reserved_toggle_changes_witness :
    (0xABCDEF : Nat) < 2 ^ 32 ∧
      tle9180_crc3_tx24 (0xABCDEF ^^^ 0xF8) ≠ tle9180_crc3_tx24 0xABCDEF :=
  ⟨by decide, crc3_reserved_toggle_changes 0xABCDEF (by decide)⟩

/-- C5, refuted as stated: it is not so that every non-zero five-bit pattern
toggled into bits 7..3 of every 32-bit frame changes the checksum; the
pattern `0b01011` toggled into the zero frame leaves it at 4. -/
theorem crc3_reserved_pattern_undetected :
    ¬ (∀ f m : Nat, f < 2 ^ 32 → 0 < m → m < 32 →
        tle9180_crc3_tx24 (f ^^^ (m <<< 3)) ≠ tle9180_crc3_tx24 f) := by
  intro h
  exact h 0 0x0B (by decide) (by decide) (by decide) (by decide)

/-- C5, amended: for a 32-bit frame `f` and a non-zero five-bit pattern `m`,
toggling the bits of 7..3 selected by `m` leaves the checksum unchanged
exactly when `m` is one of `0b01011`, `0b10110`, `0b11101` (the multiples of
the generator `x^3 + x + 1` of degree at most 4); every other pattern changes
it. -/
theorem crc3_reserved_pattern_changes_iff (f m : Nat)
    (_hf : f < 2 ^ 32) (h0 : 0 < m) (hm : m < 32) :
    tle9180_crc3_tx24 (f ^^^ (m <<< 3)) ≠ tle9180_crc3_tx24 f
      ↔ (m ≠ 0x0B ∧ m ≠ 0x16 ∧ m ≠ 0x1D) := by
  rw [Ne, crc3_xor_eq_iff]
  interval_cases m <;> decide

/-- Witness of amended C5 at `f = 0xABCDEF`, `m = 0b00001`. -/
theorem crc3_reserved_pattern_changes_iff_witness :
    (0xABCDEF : Nat) < 2 ^ 32 ∧ (0 : Nat) < 1 ∧ (1 : Nat) < 32 ∧
      (tle9180_crc3_tx24 (0xABCDEF ^^^ (1 <<< 3)) ≠ tle9180_crc3_tx24 0xABCDEF
        ↔ ((1 : Nat) ≠ 0x0B ∧ (1 : Nat) ≠ 0x16 ∧ (1 : Nat) ≠ 0x1D)) :=
  ⟨by decide, by decide, by decide,
    crc3_reserved_pattern_changes_iff 0xABCDEF 1 (by decide) (by decide) (by decide)⟩

/-! ## The frame packer -/

/-- C6: for `address` in 0..127, `data` in 0..255 and any command flag `c`, the
word `w = pack_tx24_wo_crc address data c` has bit 23 equal to 1 exactly when
`c` is non-zero, `(w >> 16) AND 0x7F = address` and `(w >> 8) AND 0xFF = data`;
hence two in-range triples (command 0 or 1) with the same packed word are
equal. -/
theorem pack_layout_roundtrip (addr data c : Nat) (ha : addr < 128) (hd : data < 256) :
    (((pack_tx24_wo_crc addr data c >>> 23) &&& 1 = 1) ↔ c ≠ 0) ∧
      (pack_tx24_wo_crc addr data c >>> 16) &&& 0x7F = addr ∧
      (pack_tx24_wo_crc addr data c >>> 8) &&& 0xFF = data ∧
      (∀ addr2 data2 c2 : Nat, addr2 < 128 → data2 < 256 → c ≤ 1 → c2 ≤ 1 →
        pack_tx24_wo_crc addr data c = pack_tx24_wo_crc addr2 data2 c2 →
          c = c2 ∧ addr = addr2 ∧ data = data2) := by
  refine ⟨?_, ?_, ?_, ?_⟩
  · rw [pack_tx24_wo_crc_eq, Nat.and_one_is_mod, Nat.shiftRight_eq_div_pow]
    by_cases hc : c = 0
    · rw [if_neg (not_not.mpr hc)]
      constructor
      · intro h; omega
      · intro h; exact absurd hc h
    · rw [if_pos hc]
      constructor
      · intro _; exact hc
      · intro _; omega
  · rw [pack_tx24_wo_crc_eq, and_0x7F, Nat.shiftRight_eq_div_pow]
    split <;> omega
  · rw [pack_tx24_wo_crc_eq, and_0xFF, Nat.shiftRight_eq_div_pow]
    split <;> omega
  · intro addr2 data2 c2 ha2 hd2 hc hc2 h
    rw [pack_tx24_wo_crc_eq, pack_tx24_wo_crc_eq] at h
    have h1 : c = 0 ∨ c = 1 := by omega
    have h2 : c2 = 0 ∨ c2 = 1 := by omega
    rcases h1 with rfl | rfl <;> rcases h2 with rfl | rfl <;>
      simp only [ne_eq, not_true_eq_false, if_false, one_ne_zero, not_false_eq_true,
        if_true] at h <;> omega

/-- Witness of C6 at `address = 0x23`, `data = 0x9F`, `c = 1`. -/
theorem pack_layout_roundtrip_witness :
    (0x23 : Nat) < 128 ∧ (0x9F : Nat) < 256 ∧
      ((((pack_tx24_wo_crc 0x23 0x9F 1 >>> 23) &&& 1 = 1) ↔ (1 : Nat) ≠ 0) ∧
      (pack_tx24_wo_crc 0x23 0x9F 1 >>> 16) &&& 0x7F = 0x23 ∧
      (pack_tx24_wo_crc 0x23 0x9F 1 >>> 8) &&& 0xFF = 0x9F ∧
      (∀ addr2 data2 c2 : Nat, addr2 < 128 → data2 < 256 → (1 : Nat) ≤ 1 → c2 ≤ 1 →
        pack_tx24_wo_crc 0x23 0x9F 1 = pack_tx24_wo_crc addr2 data2 c2 →
          1 = c2 ∧ 0x23 = addr2 ∧ 0x9F = data2)) :=
  ⟨by decide, by decide, pack_layout_roundtrip 0x23 0x9F 1 (by decide) (by decide)⟩

/-- C7: `pack_tx24_wo_crc` is total (it has a value, with no error case, for
all arguments) and that value is the one for `address mod 128`, `data mod 256`
and the command flag coerced to 0 or 1; converting a wider address or data to
`uint8_t` first makes no difference, and the value fits the `uint32_t` word;
for `address = 200`, `data = 300`, `command = 1` the address field reads
`0x48` and the data field `0x2C`. -/
theorem pack_masks_out_of_range (addr data c : Nat) :
    pack_tx24_wo_crc addr data c
        = pack_tx24_wo_crc (addr % 128) (data % 256) (if c ≠ 0 then 1 else 0) ∧
      pack_tx24_wo_crc (addr % 256) (data % 256) c = pack_tx24_wo_crc addr data c ∧
      pack_tx24_wo_crc addr data c < 2 ^ 32 ∧
      (pack_tx24_wo_crc 200 300 1 >>> 16) &&& 0x7F = 0x48 ∧
      (pack_tx24_wo_crc 200 300 1 >>> 8) &&& 0xFF = 0x2C ∧
      pack_tx24_wo_crc 200 300 1 = pack_tx24_wo_crc 0x48 0x2C 1 := by
  refine ⟨?_, ?_, ?_, by decide, by decide, by decide⟩
  · rw [pack_tx24_wo_crc_eq, pack_tx24_wo_crc_eq, Nat.mod_mod, Nat.mod_mod]
    by_cases hc : c = 0 <;> simp [hc]
  · rw [pack_tx24_wo_crc_eq, pack_tx24_wo_crc_eq]
    have e1 : addr % 256 % 128 = addr % 128 := by omega
    rw [e1, Nat.mod_mod]
  · have ha : addr % 128 < 128 := Nat.mod_lt _ (by decide)
    have hd : data % 256 < 256 := Nat.mod_lt _ (by decide)
    rw [pack_tx24_wo_crc_eq]
    split <;> omega

/-- C8: for all arguments, in range or not, the word returned by
`pack_tx24_wo_crc` is below `2 ^ 24` (no bit above 23) and its bits 7..0 are
zero: the reserved bits 7..3 and the checksum field 2..0. -/
theorem pack_well_formed (addr data c : Nat) :
    pack_tx24_wo_crc addr data c < 2 ^ 24 ∧
      pack_tx24_wo_crc addr data c &&& 0xFF = 0 ∧
      (pack_tx24_wo_crc addr data c >>> 3) &&& 0x1F = 0 ∧
      pack_tx24_wo_crc addr data c &&& 0x7 = 0 ∧
      pack_tx24_wo_crc addr data c >>> 24 = 0 := by
  have ha : addr % 128 < 128 := Nat.mod_lt _ (by decide)
  have hd : data % 256 < 256 := Nat.mod_lt _ (by decide)
  rw [and_0xFF, and_0x1F, and_0x7, Nat.shiftRight_eq_div_pow, Nat.shiftRight_eq_div_pow,
    pack_tx24_wo_crc_eq]
  split <;> omega

/-! ## The checking loop -/

/-- C9, refuted as stated for arbitrary sequences: over a table of `2 ^ 32`
copies of a mismatching vector the 32-bit counter `fails` wraps to 0 and the
status is 0 (success), while the number of mismatching vectors is `2 ^ 32`. -/
theorem main_on_counter_wraps :
    (main_on (List.replicate (2 ^ 32) mismatching_vector)).fails = 0 ∧
      (main_on (List.replicate (2 ^ 32) mismatching_vector)).status = 0 ∧
      (List.replicate (2 ^ 32) mismatching_vector).countP
        (fun e => decide (tle9180_crc3_tx24
          (pack_tx24_wo_crc (e.ADDRESS % 256) (e.DATA % 256) (e.C % 256)) ≠ e.CRC &&& 0x7))
        = 2 ^ 32 ∧
      tle9180_crc3_tx24 (pack_tx24_wo_crc (mismatching_vector.ADDRESS % 256)
          (mismatching_vector.DATA % 256) (mismatching_vector.C % 256))
        ≠ mismatching_vector.CRC &&& 0x7 := by
  have hbad : (!entry_ok mismatching_vector) = true := by decide
  have hfails : main_loop (List.replicate (2 ^ 32) mismatching_vector) 0 = 0 := by
    rw [main_loop_eq _ 0 (by decide), List.countP_replicate, hbad, if_pos rfl, Nat.zero_add,
      Nat.mod_self]
  refine ⟨?_, ?_, ?_, by decide⟩
  · rw [main_on_fails, hfails]
  · rw [main_on_status, hfails, if_pos rfl]
  · have hfun : (fun e : IfxTLE9180_SpiTx_bits => decide (tle9180_crc3_tx24
          (pack_tx24_wo_crc (e.ADDRESS % 256) (e.DATA % 256) (e.C % 256)) ≠ e.CRC &&& 0x7))
        = (fun e => !entry_ok e) := funext (fun e => (not_entry_ok_eq e).symm)
    rw [hfun, List.countP_replicate, hbad, if_pos rfl]

/-- C9, amended: for every table of fewer than `2 ^ 32` test vectors, the
counter `fails` left by the loop of `main` is the number of vectors whose
computed CRC3 of the packed frame differs from the given CRC masked to three
bits, `n` is the table length, and the status is 0 exactly when that counter
is 0, that is exactly when every vector matches, and 1 otherwise. -/
theorem main_on_counts_mismatches (table : List IfxTLE9180_SpiTx_bits)
    (hlen : table.length < 2 ^ 32) :
    (main_on table).fails = table.countP (fun e => decide (tle9180_crc3_tx24
        (pack_tx24_wo_crc (e.ADDRESS % 256) (e.DATA % 256) (e.C % 256)) ≠ e.CRC &&& 0x7)) ∧
      (main_on table).n = table.length ∧
      ((main_on table).status = 0 ↔ (main_on table).fails = 0) ∧
      ((main_on table).status = 0 ↔ ∀ e ∈ table, tle9180_crc3_tx24
        (pack_tx24_wo_crc (e.ADDRESS % 256) (e.DATA % 256) (e.C % 256)) = e.CRC &&& 0x7) ∧
      ((main_on table).status ≠ 0 → (main_on table).status = 1) := by
  have hfun : (fun e : IfxTLE9180_SpiTx_bits => decide (tle9180_crc3_tx24
        (pack_tx24_wo_crc (e.ADDRESS % 256) (e.DATA % 256) (e.C % 256)) ≠ e.CRC &&& 0x7))
      = (fun e => !entry_ok e) := funext (fun e => (not_entry_ok_eq e).symm)
  have hle : table.countP (fun e => !entry_ok e) ≤ table.length := List.countP_le_length _
  have hfails : main_loop table 0 = table.countP (fun e => !entry_ok e) := by
    rw [main_loop_eq table 0 (by decide), Nat.zero_add]
    exact Nat.mod_eq_of_lt (by omega)
  have hstatus := main_on_status table
  have hf := main_on_fails table
  refine ⟨?_, rfl, ?_, ?_, ?_⟩
  · rw [hfun, hf, hfails]
  · rw [hstatus, hf]
    split <;> simp_all
  · rw [hstatus, hfails]
    have hz : table.countP (fun e => !entry_ok e) = 0 ↔ ∀ e ∈ table, tle9180_crc3_tx24
        (pack_tx24_wo_crc (e.ADDRESS % 256) (e.DATA % 256) (e.C % 256)) = e.CRC &&& 0x7 := by
      rw [List.countP_eq_zero]
      constructor
      · intro h e he
        have := h e he
        rw [not_entry_ok_eq] at this
        simpa using this
      · intro h e he
        rw [not_entry_ok_eq]
        simpa using h e he
    rw [← hz]
    split
    · simp_all
    · simp_all
  · rw [hstatus]
    split
    · intro h; exact absurd rfl h
    · intro _; rfl

/-- Witness of amended C9 at the two-entry `sample_table`, whose second entry
is a mismatch. -/
theorem main_on_counts_mismatches_witness :
    sample_table.length < 2 ^ 32 ∧
      ((main_on sample_table).fails = sample_table.countP (fun e => decide (tle9180_crc3_tx24
        (pack_tx24_wo_crc (e.ADDRESS % 256) (e.DATA % 256) (e.C % 256)) ≠ e.CRC &&& 0x7)) ∧
      (main_on sample_table).n = sample_table.length ∧
      ((main_on sample_table).status = 0 ↔ (main_on sample_table).fails = 0) ∧
      ((main_on sample_table).status = 0 ↔ ∀ e ∈ sample_table, tle9180_crc3_tx24
        (pack_tx24_wo_crc (e.ADDRESS % 256) (e.DATA % 256) (e.C % 256)) = e.CRC &&& 0x7) ∧
      ((main_on sample_table).status ≠ 0 → (main_on sample_table).status = 1)) :=
  ⟨by decide, main_on_counts_mismatches sample_table (by decide)⟩

/-! ## The polynomial form -/

/-- C10: for every 32-bit frame, `tle9180_crc3_tx24` equals the MSB-first
shift-and-XOR CRC of polynomial `x^3 + x + 1` over bits 23 down to 3 with
start register `0b100` and no final XOR. -/
theorem crc3_refines_shift_xor (f : Nat) (_hf : f < 2 ^ 32) :
    tle9180_crc3_tx24 f = crc3_shift_xor f := by
  rw [crc3_eq_loop, crc3_loop_eq_foldl f 21 4 (by decide)]
  rfl

/-- Witness of C10 at `f = 0x812300`. -/
theorem crc3_refines_shift_xor_witness :
    (0x812300 : Nat) < 2 ^ 32 ∧ tle9180_crc3_tx24 0x812300 = crc3_shift_xor 0x812300 :=
  ⟨by decide, crc3_refines_shift_xor 0x812300 (by decide)⟩

/-! ## The register stays three bits wide -/

/-- C11: for every 32-bit frame the register of `tle9180_crc3_tx24` is at most
7 at the start (where it is `0b100`) and after each of the 21 passes of the
loop; the loop ends in the register after pass 21, the final mask leaves it
unchanged, so the returned value is the unmasked final register and lies in
0..7. -/
theorem crc3_mask_redundant (f : Nat) (_hf : f < 2 ^ 32) :
    (∀ j, j ≤ 21 → crc3_register_after f j ≤ 7) ∧
      crc3_register_after f 0 = 0b100 ∧
      crc3_loop f 21 0b100 = crc3_register_after f 21 ∧
      (crc3_loop f 21 0b100 &&& 0x7) % 256 = crc3_loop f 21 0b100 ∧
      tle9180_crc3_tx24 f = crc3_loop f 21 0b100 ∧
      tle9180_crc3_tx24 f ≤ 7 := by
  have hl : crc3_loop f 21 0b100 < 8 := crc3_loop_lt f 21 4 (by decide)
  refine ⟨?_, rfl, ?_, ?_, crc3_eq_loop f, ?_⟩
  · intro j _
    exact Nat.le_of_lt_succ (crc3_register_after_lt f j)
  · exact crc3_loop_register_after f 21 (Nat.le_refl 21)
  · rw [and_0x7]
    omega
  · rw [crc3_eq_loop]
    omega

/-- Witness of C11 at `f = 0x812300`. -/
theorem crc3_mask_redundant_witness :
    (0x812300 : Nat) < 2 ^ 32 ∧
      ((∀ j, j ≤ 21 → crc3_register_after 0x812300 j ≤ 7) ∧
      crc3_register_after 0x812300 0 = 0b100 ∧
      crc3_loop 0x812300 21 0b100 = crc3_register_after 0x812300 21 ∧
      (crc3_loop 0x812300 21 0b100 &&& 0x7) % 256 = crc3_loop 0x812300 21 0b100 ∧
      tle9180_crc3_tx24 0x812300 = crc3_loop 0x812300 21 0b100 ∧
      tle9180_crc3_tx24 0x812300 ≤ 7) :=
  ⟨by decide, crc3_mask_redundant 0x812300 (by decide)⟩

/-! ## Splitting and reordering the table -/

/-- C12, refuted as stated for arbitrary sequences: with `xs` and `ys` both
`2 ^ 31` copies of a mismatching vector, the counter over `xs` followed by `ys`
wraps to 0, while the counters over `xs` and over `ys` add up to `2 ^ 32`. -/
theorem main_on_split_sum_wraps :
    (main_on (List.replicate (2 ^ 31) mismatching_vector
        ++ List.replicate (2 ^ 31) mismatching_vector)).fails = 0 ∧
      (main_on (List.replicate (2 ^ 31) mismatching_vector)).fails
        + (main_on (List.replicate (2 ^ 31) mismatching_vector)).fails = 2 ^ 32 := by
  have hbad : (!entry_ok mismatching_vector) = true := by decide
  constructor
  · rw [main_on_fails_eq, List.countP_append, List.countP_replicate, hbad, if_pos rfl]
    decide
  · rw [main_on_fails_replicate]
    decide

/-- C12, amended: for all tables `xs` and `ys`, the counter `fails` over `xs`
followed by `ys` is the sum of the counters over `xs` and over `ys` reduced
modulo `2 ^ 32`, hence the plain sum when `xs` and `ys` together hold fewer
than `2 ^ 32` vectors; and the counter over any permutation of `xs` equals the
counter over `xs`. -/
theorem main_on_fails_append_perm (xs ys : List IfxTLE9180_SpiTx_bits) :
    (main_on (xs ++ ys)).fails
        = ((main_on xs).fails + (main_on ys).fails) % 2 ^ 32 ∧
      (xs.length + ys.length < 2 ^ 32 →
        (main_on (xs ++ ys)).fails = (main_on xs).fails + (main_on ys).fails) ∧
      (∀ zs : List IfxTLE9180_SpiTx_bits, zs.Perm xs →
        (main_on zs).fails = (main_on xs).fails) := by
  have hx : xs.countP (fun e => !entry_ok e) ≤ xs.length := List.countP_le_length _
  have hy : ys.countP (fun e => !entry_ok e) ≤ ys.length := List.countP_le_length _
  refine ⟨?_, ?_, ?_⟩
  · rw [main_on_fails_eq, main_on_fails_eq, main_on_fails_eq, List.countP_append]
    omega
  · intro hlen
    rw [main_on_fails_eq, main_on_fails_eq, main_on_fails_eq, List.countP_append]
    omega
  · intro zs hp
    rw [main_on_fails_eq, main_on_fails_eq, hp.countP_eq]

/-- Witness of amended C12 at `sample_table` twice, and at its reversal. -/
theorem main_on_fails_append_perm_witness :
    sample_table.length + sample_table.length < 2 ^ 32 ∧
      sample_table.reverse.Perm sample_table ∧
      (main_on (sample_table ++ sample_table)).fails
        = ((main_on sample_table).fails + (main_on sample_table).fails) % 2 ^ 32 ∧
      (main_on (sample_table ++ sample_table)).fails
        = (main_on sample_table).fails + (main_on sample_table).fails ∧
      (main_on sample_table.reverse).fails = (main_on sample_table).fails :=
  ⟨by decide, List.reverse_perm sample_table,
    (main_on_fails_append_perm sample_table sample_table).1,
    (main_on_fails_append_perm sample_table sample_table).2.1 (by decide),
    (main_on_fails_append_perm sample_table sample_table).2.2 _
      (List.reverse_perm sample_table)⟩

/-! ## Affinity over exclusive or -/

/-- C13: the checksum of the zero frame is the start value 4, and for all
32-bit frames `a` and `b` the checksum of `a XOR b` is the checksum of `a` XOR
the checksum of `b` XOR 4. -/
theorem crc3_affine (a b : Nat) (_ha : a < 2 ^ 32) (_hb : b < 2 ^ 32) :
    tle9180_crc3_tx24 0 = 4 ∧
      tle9180_crc3_tx24 (a ^^^ b)
        = tle9180_crc3_tx24 a ^^^ tle9180_crc3_tx24 b ^^^ 4 := by
  refine ⟨by decide, ?_⟩
  have hb : tle9180_crc3_tx24 b = 4 ^^^ crc3_loop b 21 0 := by
    have h := crc3_xor 0 b
    rw [Nat.zero_xor] at h
    rw [h]
    have h4 : tle9180_crc3_tx24 0 = 4 := by decide
    rw [h4]
  rw [crc3_xor, hb, Nat.xor_assoc, Nat.xor_assoc]
  congr 1
  rw [Nat.xor_comm 4 _, Nat.xor_assoc, Nat.xor_self, Nat.xor_zero]

/-- Witness of C13 at `a = 0x812300`, `b = 0x00FF08`. -/
theorem crc3_affine_witness :
    (0x812300 : Nat) < 2 ^ 32 ∧ (0x00FF08 : Nat) < 2 ^ 32 ∧
      tle9180_crc3_tx24 0 = 4 ∧
      tle9180_crc3_tx24 (0x812300 ^^^ 0x00FF08)
        = tle9180_crc3_tx24 0x812300 ^^^ tle9180_crc3_tx24 0x00FF08 ^^^ 4 :=
  ⟨by decide, by decide, crc3_affine 0x812300 0x00FF08 (by decide) (by decide)⟩

/-! ## Which errors the checksum detects -/

/-- C14: for every 32-bit frame `f`, every `k` with `3 ≤ k ≤ 21` and every
non-zero three-bit pattern `e`, toggling `e << k` changes the checksum; and
flipping any single bit `i` with `3 ≤ i ≤ 23` changes the checksum. -/
theorem crc3_detects_short_bursts (f : Nat) (_hf : f < 2 ^ 32) :
    (∀ k e : Nat, 3 ≤ k → k ≤ 21 → 0 < e → e < 8 →
        tle9180_crc3_tx24 (f ^^^ (e <<< k)) ≠ tle9180_crc3_tx24 f) ∧
      (∀ i : Nat, 3 ≤ i → i ≤ 23 →
        tle9180_crc3_tx24 (f ^^^ (1 <<< i)) ≠ tle9180_crc3_tx24 f) := by
  constructor
  · intro k e hk3 hk21 he0 he8
    rw [Ne, crc3_xor_eq_iff]
    interval_cases k <;> interval_cases e <;> decide
  · intro i hi3 hi23
    rw [Ne, crc3_xor_eq_iff]
    interval_cases i <;> decide

/-- Witness of C14 at `f = 0x812300`, burst `0b101 << 9` and bit 23. -/
theorem crc3_detects_short_bursts_witness :
    (0x812300 : Nat) < 2 ^ 32 ∧
      ((3 : Nat) ≤ 9 ∧ (9 : Nat) ≤ 21 ∧ (0 : Nat) < 5 ∧ (5 : Nat) < 8) ∧
      ((3 : Nat) ≤ 23 ∧ (23 : Nat) ≤ 23) ∧
      tle9180_crc3_tx24 (0x812300 ^^^ (5 <<< 9)) ≠ tle9180_crc3_tx24 0x812300 ∧
      tle9180_crc3_tx24 (0x812300 ^^^ (1 <<< 23)) ≠ tle9180_crc3_tx24 0x812300 :=
  ⟨by decide, by decide, by decide,
    (crc3_detects_short_bursts 0x812300 (by decide)).1 9 5
      (by decide) (by decide) (by decide) (by decide),
    (crc3_detects_short_bursts 0x812300 (by decide)).2 23 (by decide) (by decide)⟩

/-- C15: for every 32-bit frame `f` and bit positions `i < j` in 3..23,
flipping both bit `i` and bit `j` leaves the checksum unchanged exactly when
`j - i` is a multiple of 7; flipping bits 8 and 15 together is never
detected. -/
theorem crc3_double_flip_period_seven (f i j : Nat) (_hf : f < 2 ^ 32)
    (hi : 3 ≤ i) (hij : i < j) (hj : j ≤ 23) :
    (tle9180_crc3_tx24 (f ^^^ ((1 <<< i) ||| (1 <<< j))) = tle9180_crc3_tx24 f
        ↔ 7 ∣ j - i) ∧
      tle9180_crc3_tx24 (f ^^^ ((1 <<< 8) ||| (1 <<< 15))) = tle9180_crc3_tx24 f := by
  rw [crc3_xor_eq_iff, crc3_xor_eq_iff]
  refine ⟨?_, by decide⟩
  have hi22 : i ≤ 22 := by omega
  interval_cases i <;> interval_cases j <;> decide

/-- Witness of C15 at `f = 0x812300`, `i = 8`, `j = 15`. -/
theorem crc3_double_flip_period_seven_witness :
    (0x812300 : Nat) < 2 ^ 32 ∧ (3 : Nat) ≤ 8 ∧ (8 : Nat) < 15 ∧ (15 : Nat) ≤ 23 ∧
      ((tle9180_crc3_tx24 (0x812300 ^^^ ((1 <<< 8) ||| (1 <<< 15)))
          = tle9180_crc3_tx24 0x812300 ↔ 7 ∣ 15 - 8) ∧
      tle9180_crc3_tx24 (0x812300 ^^^ ((1 <<< 8) ||| (1 <<< 15)))
        = tle9180_crc3_tx24 0x812300) :=
  ⟨by decide, by decide, by decide, by decide,
    crc3_double_flip_period_seven 0x812300 8 15 (by decide) (by decide) (by decide)
      (by decide)⟩

end Crc3
